import Mathlib

/-!
# Buildx: build controller and disk-usage command

A shallow embedding of `controller/build/build.go` (`RunBuild`, `buildTargets`,
`parsePrintFunc`, `decodeExporterResponse`, `wrapBuildError`) and of
`commands/diskusage.go` (`runDiskUsage`, `printSummary`), followed by the
properties established about them.

Conventions of the embedding

* A Go `map[string]V` is a list of entries (`GoMap V`); a well-formed map has
  pairwise distinct keys. Lookup is `GoMap.get`, assignment `m[k] = v` is `GoMap.set`.
* A Go `error` is a `GoError`; the `nil` error is `none : Option GoError`.
* A function returning `(..., error)` returns `Except GoError _`.
* Go `int` values that are only compared are `Int`; `int64` arithmetic wraps
  (`wrapInt64`).
* Functions of other packages (parsers, the gRPC status extractor, the base64 and
  JSON codecs, the build engine) are parameters of the definitions that call them.
-/

set_option linter.dupNamespace false

namespace Buildx

/-! ## Go maps -/

/-- A Go `map[string]V`, as the list of its entries. -/
abbrev GoMap (V : Type) := List (String × V)

namespace GoMap

/-- The keys of the map, in entry order. -/
def keys {V : Type} (m : GoMap V) : List String := m.map Prod.fst

/-- The value of `m[k]` with its presence flag: `v, ok := m[k]`. -/
def get {V : Type} : GoMap V → String → Option V
  | [], _ => none
  | (k', v) :: rest, k => if k' = k then some v else get rest k

/-- The assignment `m[k] = v`: overwrite the entry of `k`, or add one. -/
def set {V : Type} : GoMap V → String → V → GoMap V
  | [], k, v => [(k, v)]
  | (k', v') :: rest, k, v => if k' = k then (k, v) :: rest else (k', v') :: set rest k v

end GoMap

/-! ## Errors -/

/-- A gRPC status, as far as `wrapBuildError` inspects it: `Code()` and `Message()`. -/
structure Status where
  code : Nat
  message : String
deriving DecidableEq, Repr

/-- The gRPC code `codes.Unimplemented`. -/
def codes.Unimplemented : Nat := 12

/-- Go `error` values.
* `errorf msg`: made by `errors.Errorf`;
* `ext msg st`: an error value handed back by another package, with its message and the
  gRPC status it carries, if any;
* `wrapf err msg`: made by `errors.Wrapf(err, msg)`;
* `wrapped err msg`: the `*wrapped` struct of `build.go`. -/
inductive GoError where
  | errorf (msg : String)
  | ext (msg : String) (st : Option Status)
  | wrapf (err : GoError) (msg : String)
  | wrapped (err : GoError) (msg : String)
deriving DecidableEq, Repr

namespace GoError

/-- The method `Error()`; for `*wrapped` it is `w.msg`. -/
def Error : GoError → String
  | errorf msg => msg
  | ext msg _ => msg
  | wrapf err msg => msg ++ ": " ++ err.Error
  | wrapped _ msg => msg

/-- The method `Unwrap()`; for `*wrapped` it is `w.err`. Values without the method
give `none`. -/
def Unwrap : GoError → Option GoError
  | errorf _ => none
  | ext _ _ => none
  | wrapf err _ => some err
  | wrapped err _ => some err

end GoError

/-- Go `strings.Contains(s, substr)`. -/
def stringsContains (s substr : String) : Bool :=
  decide (substr.toList <:+: s.toList)

/-! ## `buildTargets`: the result handler -/

/-- The variables `idx` and `res` captured by the result handler of `buildTargets`
(`var res *build.ResultContext`, `var idx int`); `R` stands for the non-nil
`*build.ResultContext` values, `none` is the nil pointer. -/
structure HandlerState (R : Type) where
  idx : Int
  res : Option R
deriving DecidableEq, Repr

/-- The state before any call: Go zero values. -/
def HandlerState.init (R : Type) : HandlerState R := ⟨0, none⟩

/-- One call of the closure passed to `build.BuildWithResultHandler`:
`if res == nil || driverIndex < idx { idx, res = driverIndex, gotRes }`. -/
def resultHandler {R : Type} (s : HandlerState R) (driverIndex : Int) (gotRes : Option R) :
    HandlerState R :=
  if s.res.isNone || decide (driverIndex < s.idx) then ⟨driverIndex, gotRes⟩ else s

/-- The handler calls of one build, in the order in which they take the mutex `mu`. -/
def runHandlers {R : Type} (calls : List (Int × Option R)) : HandlerState R :=
  calls.foldl (fun s c => resultHandler s c.1 c.2) (HandlerState.init R)

/-- The calls that carried a non-nil result with driver index `m`, in delivery order. -/
def nonNilAt {R : Type} (m : Int) (calls : List (Int × Option R)) : List (Int × Option R) :=
  calls.filter (fun c => decide (c.1 = m) && c.2.isSome)

/-- The smallest driver index among the calls that carried a non-nil result. -/
def minNonNilIndex {R : Type} (calls : List (Int × Option R)) : Option Int :=
  ((calls.filter (fun c => c.2.isSome)).map Prod.fst).min?

/-- The selection rule in the spec's words: the result of the call with the smallest
driver index among the calls that carried a non-nil result (the earliest such call
when several share that index); `none` when no call carried a result. -/
def specSelected {R : Type} (calls : List (Int × Option R)) : Option R :=
  match minNonNilIndex calls with
  | none => none
  | some m => (nonNilAt m calls).head?.bind Prod.snd

/-! ## `RunBuild`: option translation -/

/-- The type `client.ExportEntry`, as far as `RunBuild` uses it: the fields `Type` and
`Attrs` (a non-nil map, as `controllerapi.CreateExports` allocates it). -/
structure ExportEntry where
  Type' : String
  Attrs : GoMap String
deriving DecidableEq, Repr

/-- The type `build.PrintFunc`. -/
structure PrintFunc where
  Name : String
  Format : String
deriving DecidableEq, Repr

/-- The type `controllerapi.SSH`, as far as `RunBuild` builds one. -/
structure SSH where
  ID : String
  Paths : List String
deriving DecidableEq, Repr

/-- One ulimit: `Name`, `Hard`, `Soft`. -/
structure Ulimit where
  Name : String
  Hard : Int
  Soft : Int
deriving DecidableEq, Repr

/-- The request `controllerapi.BuildOptions`. The raw specs that `RunBuild` only hands
to a parser of another package (secrets, exports, caches, attestations) are carried
as strings. -/
structure BuildOptions where
  ContextPath : String
  DockerfileName : String
  NamedContexts : GoMap String
  PrintFunc : String
  Allow : List String
  Attests : List String
  BuildArgs : GoMap String
  CacheFrom : List String
  CacheTo : List String
  Exports : List String
  ExtraHosts : List String
  Labels : GoMap String
  NetworkMode : String
  NoCacheFilter : List String
  Platforms : List String
  Secrets : List String
  ShmSize : Int
  SSH : List SSH
  Tags : List String
  Target : String
  Ulimits : Option (GoMap Ulimit)
  Builder : String
  NoCache : Bool
  Pull : Bool
  ExportPush : Bool
  ExportLoad : Bool
  MetadataFile : String
deriving Repr

/-- The type `build.Inputs` (without the input stream). -/
structure Inputs where
  ContextPath : String
  DockerfilePath : String
  NamedContexts : GoMap String
deriving DecidableEq, Repr

/-- The type `build.Options`, as far as `RunBuild` fills it. Values made by other
packages (platforms, session attachables, caches, attestations, entitlements) are
carried as the strings those packages return in this embedding. -/
structure Options where
  Inputs : Inputs
  BuildArgs : GoMap String
  ExtraHosts : List String
  Labels : GoMap String
  NetworkMode : String
  NoCache : Bool
  NoCacheFilter : List String
  Pull : Bool
  ShmSize : Int
  Tags : List String
  Target : String
  Ulimits : Option (GoMap Ulimit)
  PrintFunc : Option PrintFunc
  Platforms : List String
  Session : List String
  Exports : List ExportEntry
  CacheFrom : List String
  CacheTo : List String
  Attests : List String
  Allow : List String
deriving DecidableEq, Repr

/-- The functions of other packages that the option translation of `RunBuild` calls. -/
structure Collaborators where
  /-- The first record read by `csv.NewReader(strings.NewReader(str)).Read()`. -/
  csvRead : String → Except GoError (List String)
  /-- The function `platformutil.Parse`. -/
  platformParse : List String → Except GoError (List String)
  /-- The provider `authprovider.NewDockerAuthProvider(config.LoadDefaultConfigFile(..))`. -/
  authProvider : String
  /-- The function `controllerapi.CreateSecrets`. -/
  createSecrets : List String → Except GoError String
  /-- The function `buildflags.IsGitSSH`. -/
  isGitSSH : String → Bool
  /-- The function `controllerapi.CreateSSH`. -/
  createSSH : List SSH → Except GoError String
  /-- The function `controllerapi.CreateExports`. -/
  createExports : List String → Except GoError (List ExportEntry)
  /-- The function `controllerapi.CreateCaches`. -/
  createCaches : List String → List String
  /-- The function `controllerapi.CreateAttestations`. -/
  createAttestations : List String → List String
  /-- The function `buildflags.ParseEntitlements`. -/
  parseEntitlements : List String → Except GoError (List String)
  /-- The text that the verb `%q` of `errors.Errorf` prints for a string. -/
  quote : String → String

/-- Go `strings.SplitN(field, "=", 2)` on the characters of `field`: `none` when the
result has one part (no `=`), else the two parts around the first `=`. -/
def splitFirstEq : List Char → Option (List Char × List Char)
  | [] => none
  | c :: cs =>
    if c = '=' then some ([], cs)
    else (splitFirstEq cs).map (fun p => (c :: p.1, p.2))

/-- The loop `for _, field := range fields` of `parsePrintFunc`. -/
def parsePrintFuncLoop (str : String) : List String → PrintFunc → Except GoError PrintFunc
  | [], f => .ok f
  | field :: rest, f =>
    match splitFirstEq field.toList with
    | some (p0, p1) =>
      if String.mk p0 = "format" then
        parsePrintFuncLoop str rest { f with Format := String.mk p1 }
      else .error (.errorf ("invalid print field: " ++ field))
    | none =>
      if f.Name ≠ "" then .error (.errorf ("invalid print value: " ++ str))
      else parsePrintFuncLoop str rest { f with Name := field }

/-- The function `parsePrintFunc`; `none` is the nil `*build.PrintFunc`. -/
def parsePrintFunc (c : Collaborators) (str : String) : Except GoError (Option PrintFunc) :=
  if str = "" then .ok none
  else
    match c.csvRead str with
    | .error err => .error err
    | .ok fields =>
      match parsePrintFuncLoop str fields ⟨"", ""⟩ with
      | .error err => .error err
      | .ok f => .ok (some f)

/-- The function `controllerUlimitOpt2DockerUlimit`: nil for nil, else a fresh map with a
copy of every ulimit. -/
def controllerUlimitOpt2DockerUlimit (u : Option (GoMap Ulimit)) : Option (GoMap Ulimit) :=
  match u with
  | none => none
  | some values =>
    some (values.foldl (fun acc kv => acc.set kv.1 ⟨kv.2.Name, kv.2.Hard, kv.2.Soft⟩) [])

/-- The block `if in.ExportPush { .. }` of `RunBuild` (lines 111-130), on the parsed
export list `outputs`. -/
def reconcilePush (c : Collaborators) (ExportPush ExportLoad : Bool)
    (outputs : List ExportEntry) : Except GoError (List ExportEntry) :=
  if ExportPush then
    if ExportLoad then
      .error (.errorf "push and load may not be set together at the moment")
    else
      match outputs with
      | [] => .ok [⟨"image", [("push", "true")]⟩]
      | first :: rest =>
        if first.Type' = "image" then
          .ok ({ first with Attrs := first.Attrs.set "push" "true" } :: rest)
        else
          .error (.errorf ("push and " ++ c.quote first.Type' ++
            " output can't be used together"))
  else .ok outputs

/-- The block `if in.ExportLoad { .. }` of `RunBuild` (lines 131-144). -/
def reconcileLoad (c : Collaborators) (ExportLoad : Bool)
    (outputs : List ExportEntry) : Except GoError (List ExportEntry) :=
  if ExportLoad then
    match outputs with
    | [] => .ok [⟨"docker", []⟩]
    | first :: _ =>
      if first.Type' = "docker" then .ok outputs
      else
        .error (.errorf ("load and " ++ c.quote first.Type' ++
          " output can't be used together"))
  else .ok outputs

/-- The export reconciliation of `RunBuild` (lines 111-145): the push block, then the
load block; the result is what `opts.Exports` is set to. -/
def reconcileExports (c : Collaborators) (ExportPush ExportLoad : Bool)
    (outputs : List ExportEntry) : Except GoError (List ExportEntry) :=
  match reconcilePush c ExportPush ExportLoad outputs with
  | .error err => .error err
  | .ok outputs1 => reconcileLoad c ExportLoad outputs1

/-- The option translation of `RunBuild` (lines 47-156): from the request to the
`build.Options` of the default target, or the error `RunBuild` returns with a nil
response and a nil result context. -/
def translateOptions (c : Collaborators) (req : BuildOptions) : Except GoError Options :=
  if req.NoCache && decide (req.NoCacheFilter.length > 0) then
    .error (.errorf "--no-cache and --no-cache-filter cannot currently be used together")
  else
    match parsePrintFunc c req.PrintFunc with
    | .error err => .error err
    | .ok printFunc =>
    match c.platformParse req.Platforms with
    | .error err => .error err
    | .ok platforms =>
    match c.createSecrets req.Secrets with
    | .error err => .error err
    | .ok secrets =>
    let sshSpecs :=
      if req.SSH.length = 0 && c.isGitSSH req.ContextPath then req.SSH ++ [⟨"default", []⟩]
      else req.SSH
    match c.createSSH sshSpecs with
    | .error err => .error err
    | .ok ssh =>
    match c.createExports req.Exports with
    | .error err => .error err
    | .ok outputs =>
    match reconcileExports c req.ExportPush req.ExportLoad outputs with
    | .error err => .error err
    | .ok exports =>
    match c.parseEntitlements req.Allow with
    | .error err => .error err
    | .ok allow =>
      .ok {
        Inputs := ⟨req.ContextPath, req.DockerfileName, req.NamedContexts⟩
        BuildArgs := req.BuildArgs
        ExtraHosts := req.ExtraHosts
        Labels := req.Labels
        NetworkMode := req.NetworkMode
        NoCache := req.NoCache
        NoCacheFilter := req.NoCacheFilter
        Pull := req.Pull
        ShmSize := req.ShmSize
        Tags := req.Tags
        Target := req.Target
        Ulimits := controllerUlimitOpt2DockerUlimit req.Ulimits
        PrintFunc := printFunc
        Platforms := platforms
        Session := [c.authProvider, secrets, ssh]
        Exports := exports
        CacheFrom := c.createCaches req.CacheFrom
        CacheTo := c.createCaches req.CacheTo
        Attests := c.createAttestations req.Attests
        Allow := allow }

/-! ## `decodeExporterResponse` and `writeMetadataFile` -/

/-- Byte strings (`[]byte`). -/
abbrev Bytes := List (Fin 256)

/-- The decoders of the Go standard library that `decodeExporterResponse` calls; `J`
is the type of the `interface{}` values of a decoded JSON object. -/
structure Codec (J : Type) where
  /-- The function `base64.StdEncoding.DecodeString`. -/
  base64Decode : String → Except GoError Bytes
  /-- The call `json.Unmarshal(dt, &raw)` with `var raw map[string]interface{}`: the
  error, or the map left in `raw` (the nil map is the empty one). -/
  jsonUnmarshal : Bytes → Except GoError (GoMap J)

/-- The `interface{}` values that `decodeExporterResponse` stores: the raw string `v`,
or `json.RawMessage(dt)`, which JSON output embeds as a nested document. -/
inductive MetaValue where
  | str (v : String)
  | rawMessage (dt : Bytes)
deriving DecidableEq, Repr

/-- The function `decodeExporterResponse`: one iteration of `for k, v := range
exporterResponse` per entry. -/
def decodeExporterResponse {J : Type} (c : Codec J) (exporterResponse : GoMap String) :
    GoMap MetaValue :=
  exporterResponse.foldl
    (fun out kv =>
      match c.base64Decode kv.2 with
      | .error _ => out.set kv.1 (.str kv.2)
      | .ok dt =>
        match c.jsonUnmarshal dt with
        | .error _ => out.set kv.1 (.str kv.2)
        | .ok raw =>
          if raw.length = 0 then out.set kv.1 (.str kv.2)
          else out.set kv.1 (.rawMessage dt))
    []

/-- The value that one iteration of `decodeExporterResponse` stores for the input
value `v`. -/
def decodeValue {J : Type} (c : Codec J) (v : String) : MetaValue :=
  match c.base64Decode v with
  | .error _ => .str v
  | .ok dt =>
    match c.jsonUnmarshal dt with
    | .error _ => .str v
    | .ok raw => if raw.length = 0 then .str v else .rawMessage dt

/-- The value a JSON text denotes, by its top-level shape: `null`, a scalar (`true`,
`false`, a number or a string), an array or an object; `J` is the type of the values
nested in it. The JSON structures are the arrays and the objects. -/
inductive JsonDoc (J : Type) where
  | null
  | scalar (v : J)
  | array (items : List J)
  | object (members : GoMap J)
deriving DecidableEq, Repr

/-- The call `json.Unmarshal(dt, &raw)` with `var raw map[string]interface{}`, as the
package `encoding/json` documents it, over the value `parse dt` that the text denotes
(`none` for a text that is not JSON): an object is stored into the map, `null` leaves
the map nil without an error, and any other value is an error, since it cannot be
stored into a map. -/
def unmarshalIntoMap {J : Type} (parse : Bytes → Option (JsonDoc J)) (dt : Bytes) :
    Except GoError (GoMap J) :=
  match parse dt with
  | none => .error (.ext "invalid JSON text" none)
  | some (.object members) => .ok members
  | some .null => .ok []
  | some (.scalar _) => .error (.ext "json: cannot unmarshal into Go value of type map" none)
  | some (.array _) => .error (.ext "json: cannot unmarshal into Go value of type map" none)

/-- The codec of `decodeExporterResponse` over a base64 decoder and a JSON parser. -/
def jsonCodec {J : Type} (base64Decode : String → Except GoError Bytes)
    (parse : Bytes → Option (JsonDoc J)) : Codec J :=
  ⟨base64Decode, unmarshalIntoMap parse⟩

/-- The function `writeMetadataFile`, with `json.MarshalIndent(dt, "", "  ")` and
`ioutils.AtomicWriteFile(filename, b, 0644)` as parameters; the result is the error
returned. -/
def writeMetadataFile (marshalIndent : GoMap MetaValue → Except GoError Bytes)
    (atomicWriteFile : String → Bytes → Option GoError)
    (filename : String) (dt : GoMap MetaValue) : Option GoError :=
  match marshalIndent dt with
  | .error err => some err
  | .ok b => atomicWriteFile filename b

/-! ## `wrapBuildError` -/

/-- The function `wrapBuildError`; `asGRPCStatus` is `grpcerrors.AsGRPCStatus` on a
non-nil error (`none` when its flag `ok` is false). -/
def wrapBuildError (asGRPCStatus : GoError → Option Status) (err : Option GoError)
    (bake : Bool) : Option GoError :=
  match err with
  | none => none
  | some e =>
    match asGRPCStatus e with
    | some st =>
      if decide (st.code = codes.Unimplemented) && stringsContains st.message
          "unsupported frontend capability moby.buildkit.frontend.contexts" then
        let msg :=
          if bake then
            "current frontend does not support defining additional contexts for targets."
          else "current frontend does not support --build-context."
        some (.wrapped e (msg ++
          " Named contexts are supported since Dockerfile v1.4. Use #syntax directive in Dockerfile or update to latest BuildKit."))
      else some e
    | none => some e

/-! ## `buildTargets` and `RunBuild` -/

/-- The constant `defaultTargetName`. -/
def defaultTargetName : String := "default"

/-- The type `client.SolveResponse`. -/
structure SolveResponse where
  ExporterResponse : GoMap String
deriving DecidableEq, Repr

/-- What one call of `build.BuildWithResultHandler` does: the calls it makes to the
result handler (in the order in which they take the mutex), and what it returns. -/
structure EngineRun (R : Type) where
  calls : List (Int × Option R)
  resp : Option (GoMap SolveResponse)
  err : Option GoError

/-- The collaborators of `buildTargets`. -/
structure BuildEnv (R J : Type) where
  /-- The error of `progressConfig.Printer(ctx2, ng)`. -/
  printerErr : Option GoError
  /-- The function `build.BuildWithResultHandler`, from the per-target options. -/
  buildWithResultHandler : GoMap Options → EngineRun R
  /-- The error of `printer.Wait()`. -/
  waitErr : Option GoError
  codec : Codec J
  marshalIndent : GoMap MetaValue → Except GoError Bytes
  atomicWriteFile : String → Bytes → Option GoError
  /-- The callback `progressConfig.PrintResultFunc`. -/
  printResult : PrintFunc → GoMap String → Option GoError

/-- The loop `for k := range resp` at the end of `buildTargets`: the first error of
the print callback, in iteration order. -/
def printResults (printResult : PrintFunc → GoMap String → Option GoError)
    (opts : GoMap Options) : List (String × SolveResponse) → Option GoError
  | [] => none
  | (k, r) :: rest =>
    match (opts.get k).bind (fun o => o.PrintFunc) with
    | some f =>
      match printResult f r.ExporterResponse with
      | some err => some err
      | none => printResults printResult opts rest
    | none => printResults printResult opts rest

/-- The function `buildTargets`. The outer `none` is a run-time panic (the nil
dereference `resp[defaultTargetName].ExporterResponse` when the target is missing);
`.error err` is the return `nil, nil, err`; `.ok (r, res)` is the return
`resp[defaultTargetName], res, nil`. -/
def buildTargets {R J : Type} (env : BuildEnv R J) (opts : GoMap Options)
    (metadataFile : String) : Option (Except GoError (Option SolveResponse × Option R)) :=
  match env.printerErr with
  | some err => some (.error err)
  | none =>
    let run := env.buildWithResultHandler opts
    let res := (runHandlers run.calls).res
    let err := match run.err with
      | some e => some e
      | none => env.waitErr
    match err with
    | some e => some (.error e)
    | none =>
      let written : Option (Option GoError) :=
        match run.resp with
        | some resp =>
          if decide (metadataFile.length > 0) then
            match resp.get defaultTargetName with
            | none => none
            | some sr =>
              some (writeMetadataFile env.marshalIndent env.atomicWriteFile metadataFile
                (decodeExporterResponse env.codec sr.ExporterResponse))
          else some none
        | none => some none
      match written with
      | none => none
      | some (some e) => some (.error e)
      | some none =>
        match printResults env.printResult opts (run.resp.getD []) with
        | some e => some (.error e)
        | none => some (.ok ((run.resp.getD []).get defaultTargetName, res))

/-- The function `updateLastActivity`, with the error of `storeutil.GetStore` and the one
of `txn.UpdateLastActivity(ng)`. -/
def updateLastActivity (getStoreErr updateErr : Option GoError) : Option GoError :=
  match getStoreErr with
  | some err => some err
  | none => updateErr

/-- The collaborators of `RunBuild`. -/
structure RunEnv (R J : Type) where
  collab : Collaborators
  /-- The error of `builder.New`. -/
  newBuilderErr : Option GoError
  getStoreErr : Option GoError
  updateErr : Option GoError
  /-- The error of `b.LoadNodes(ctx, false)`. -/
  loadNodesErr : Option GoError
  build : BuildEnv R J
  asGRPCStatus : GoError → Option Status

/-- The function `RunBuild`. The outer `none` is a run-time panic; `.error err` is the
return `nil, nil, err`; `.ok (resp, res)` is the return `resp, res, nil`. -/
def RunBuild {R J : Type} (env : RunEnv R J) (req : BuildOptions) :
    Option (Except GoError (Option SolveResponse × Option R)) :=
  match translateOptions env.collab req with
  | .error err => some (.error err)
  | .ok opts =>
    match env.newBuilderErr with
    | some err => some (.error err)
    | none =>
    match updateLastActivity env.getStoreErr env.updateErr with
    | some err =>
      some (.error (.wrapf err "failed to update builder last activity time"))
    | none =>
    match env.loadNodesErr with
    | some err => some (.error err)
    | none =>
      match buildTargets env.build [(defaultTargetName, opts)] req.MetadataFile with
      | none => none
      | some (.error err) =>
        match wrapBuildError env.asGRPCStatus (some err) false with
        | some err1 => some (.error err1)
        | none => some (.ok (none, none))
      | some (.ok r) => some (.ok r)

/-! ## `runDiskUsage` and `printSummary` -/

/-- The value of a Go `int64` computation: the representative of `x` modulo `2^64` in
`[-2^63, 2^63)`. -/
def wrapInt64 (x : Int) : Int := (x + 2 ^ 63) % 2 ^ 64 - 2 ^ 63

/-- The type `client.UsageInfo`, as far as the table and the summary read it. -/
structure UsageInfo where
  ID : String
  Mutable : Bool
  InUse : Bool
  Size : Int
  Shared : Bool
deriving DecidableEq, Repr

/-- The accumulators of `printSummary`. -/
structure Summary where
  total : Int
  reclaimable : Int
  shared : Int
deriving DecidableEq, Repr

/-- The body of the inner loop of `printSummary`, for one record `di`. -/
def summaryStep (s : Summary) (di : UsageInfo) : Summary :=
  let s1 : Summary :=
    if di.Size > 0 then
      { s with
        total := wrapInt64 (s.total + di.Size)
        reclaimable :=
          if !di.InUse then wrapInt64 (s.reclaimable + di.Size) else s.reclaimable }
    else s
  if di.Shared then { s1 with shared := wrapInt64 (s1.shared + di.Size) } else s1

/-- The two nested loops of `printSummary`: the accumulators after all records of all
nodes. -/
def summarize (dus : List (List UsageInfo)) : Summary :=
  dus.foldl (fun s du => du.foldl summaryStep s) ⟨0, 0, 0⟩

/-- The function `printSummary`: the lines written, each with the `int64` handed to
`units.Bytes` (the text formatting is left out). `Shared` and `Private` are written
only when `shared > 0`. -/
def printSummary (dus : List (List UsageInfo)) : List (String × Int) :=
  let s := summarize dus
  (if s.shared > 0 then
    [("Shared", s.shared), ("Private", wrapInt64 (s.total - s.shared))]
   else []) ++
  [("Reclaimable", s.reclaimable), ("Total", s.total)]

/-- A driver handle (`di.Driver`, non-nil): what `Client(ctx)` and then
`DiskUsage(ctx, ..)` return for it. -/
structure DriverHandle where
  clientErr : Option GoError
  diskUsage : Except GoError (List UsageInfo)

/-- The type `builderutil.Driver`, as far as `runDiskUsage` reads it. -/
structure Driver where
  Name : String
  Driver : Option DriverHandle
  Err : Option GoError

/-- The collaborators and inputs of `runDiskUsage`. -/
structure DiskUsageEnv where
  /-- The error of `toBuildkitPruneInfo(in.filter.Value())`. -/
  pruneInfoErr : Option GoError
  /-- The error of `storeutil.GetStore`. -/
  getStoreErr : Option GoError
  /-- The error of `builderutil.New`. -/
  newBuilderErr : Option GoError
  /-- The error of `builder.Validate()`. -/
  validateErr : Option GoError
  /-- The error of `builder.LoadDrivers(ctx, false, "")`. -/
  loadDriversErr : Option GoError
  /-- The field `builder.Drivers` after loading. -/
  drivers : List Driver
  /-- The value `in.filter.Value().Len()`. -/
  filterLen : Nat
  verbose : Bool

/-- The function literal run by `eg.Go` for one driver: the error returned and the
value left in `out[i]` (nil is `none`). -/
def queryDriver (di : Driver) : Option GoError × Option (List UsageInfo) :=
  match di.Driver with
  | some d =>
    match d.clientErr with
    | some err => (some err, none)
    | none =>
      match d.diskUsage with
      | .error err => (some err, none)
      | .ok du => (none, some du)
  | none => (none, none)

/-- The function `runDiskUsage`: the error returned (`none` is nil, success) and the
summary written, if any. Of the errors of the branches, `eg.Wait()` is given the one
of the branch that comes first in `drivers`. -/
def runDiskUsage (env : DiskUsageEnv) : Option GoError × Option (List (String × Int)) :=
  match env.pruneInfoErr with
  | some err => (some err, none)
  | none =>
  match env.getStoreErr with
  | some err => (some err, none)
  | none =>
  match env.newBuilderErr with
  | some err => (some err, none)
  | none =>
  match env.validateErr with
  | some err => (some err, none)
  | none =>
  match env.loadDriversErr with
  | some err => (some err, none)
  | none =>
    -- from here on the variable `err` holds the nil result of `LoadDrivers`
    let err : Option GoError := env.loadDriversErr
    if env.drivers.any (fun di => di.Err.isSome) then (err, none)
    else
      let results := env.drivers.map queryDriver
      match results.findSome? (fun r => r.1) with
      | some e => (some e, none)
      | none =>
        let out := results.map (fun r => r.2)
        if env.filterLen = 0 then (none, some (printSummary (out.map (fun du => du.getD []))))
        else (none, none)

/-! ## Sample inputs -/

/-- Sample collaborators: every parser accepts its input, a raw export spec is the bare
export type, and `%q` puts the text between double quotes. -/
def sampleCollab : Collaborators where
  csvRead := fun str => .ok [str]
  platformParse := fun ps => .ok ps
  authProvider := "auth"
  createSecrets := fun _ => .ok "secrets"
  isGitSSH := fun _ => false
  createSSH := fun _ => .ok "ssh"
  createExports := fun raw => .ok (raw.map (fun t => ⟨t, [("name", "app")]⟩))
  createCaches := fun cs => cs
  createAttestations := fun xs => xs
  parseEntitlements := fun es => .ok es
  quote := fun t => "\"" ++ t ++ "\""

/-- A request with every field at its Go zero value. -/
def zeroRequest : BuildOptions where
  ContextPath := ""
  DockerfileName := ""
  NamedContexts := []
  PrintFunc := ""
  Allow := []
  Attests := []
  BuildArgs := []
  CacheFrom := []
  CacheTo := []
  Exports := []
  ExtraHosts := []
  Labels := []
  NetworkMode := ""
  NoCacheFilter := []
  Platforms := []
  Secrets := []
  ShmSize := 0
  SSH := []
  Tags := []
  Target := ""
  Ulimits := none
  Builder := ""
  NoCache := false
  Pull := false
  ExportPush := false
  ExportLoad := false
  MetadataFile := ""

/-- The value of a character of the standard base64 alphabet. -/
def base64Value (ch : Char) : Option Nat :=
  let n := ch.toNat
  if 65 ≤ n ∧ n ≤ 90 then some (n - 65)
  else if 97 ≤ n ∧ n ≤ 122 then some (n - 71)
  else if 48 ≤ n ∧ n ≤ 57 then some (n + 4)
  else if n = 43 then some 62
  else if n = 47 then some 63
  else none

/-- The bytes of a base64 text without padding, four characters at a time; a last
group of two or three characters gives one or two bytes. -/
def base64Groups : List Nat → Option (List Nat)
  | [] => some []
  | [_] => none
  | [a, b] => some [(a * 4 + b / 16) % 256]
  | [a, b, c] => some [(a * 4 + b / 16) % 256, (b * 16 + c / 4) % 256]
  | a :: b :: c :: d :: rest =>
    (base64Groups rest).map (fun bytes =>
      (a * 4 + b / 16) % 256 :: (b * 16 + c / 4) % 256 :: (c * 64 + d) % 256 :: bytes)

/-- A sample of `base64.StdEncoding.DecodeString`: standard alphabet, padding with `=`
to a multiple of four characters. -/
def sampleBase64Decode (v : String) : Except GoError Bytes :=
  let chars := v.toList
  let body := chars.filter (fun ch => ch ≠ '=')
  let pad := chars.length - body.length
  if chars.length % 4 = 0 ∧ pad ≤ 2 ∧ chars.drop body.length = List.replicate pad '=' then
    match (body.mapM base64Value).bind base64Groups with
    | some bytes => .ok (bytes.map (Fin.ofNat))
    | none => .error (.ext "illegal base64 data" none)
  else .error (.ext "illegal base64 data" none)

/-- The bytes of a text of ASCII characters. -/
def asciiBytes (text : String) : Bytes := text.toList.map (fun ch => Fin.ofNat ch.toNat)

/-- A sample of `json.Unmarshal` into a `map[string]interface{}`, on four documents: an
object with one member, the empty object, `null` (no error, the map stays nil) and an
array (an error, the target is a map). Any other input is taken as malformed. -/
def sampleJsonUnmarshal (dt : Bytes) : Except GoError (GoMap String) :=
  if dt = asciiBytes "\x7b\"a\":\"b\"\x7d" then .ok [("a", "b")]
  else if dt = asciiBytes "\x7b\x7d" then .ok []
  else if dt = asciiBytes "null" then .ok []
  else if dt = asciiBytes "[1]" then
    .error (.ext "json: cannot unmarshal array into Go value of type map[string]interface \x7b\x7d" none)
  else .error (.ext "invalid character" none)

/-- The sample codec. -/
def sampleCodec : Codec String := ⟨sampleBase64Decode, sampleJsonUnmarshal⟩

/-- A sample of `grpcerrors.AsGRPCStatus`: the status carried by the error or by an error
it wraps. -/
def sampleAsGRPCStatus : GoError → Option Status
  | .errorf _ => none
  | .ext _ st => st
  | .wrapf err _ => sampleAsGRPCStatus err
  | .wrapped err _ => sampleAsGRPCStatus err

/-- Sample collaborators of `buildTargets`: one node delivers the result `1`. -/
def sampleBuildEnv : BuildEnv Nat String where
  printerErr := none
  buildWithResultHandler := fun _ =>
    ⟨[(0, some 1)], some [(defaultTargetName, ⟨[("image.name", "app")]⟩)], none⟩
  waitErr := none
  codec := sampleCodec
  marshalIndent := fun _ => .ok []
  atomicWriteFile := fun _ _ => none
  printResult := fun _ _ => none

/-- Sample collaborators of `RunBuild`. -/
def sampleRunEnv : RunEnv Nat String where
  collab := sampleCollab
  newBuilderErr := none
  getStoreErr := none
  updateErr := none
  loadNodesErr := none
  build := sampleBuildEnv
  asGRPCStatus := sampleAsGRPCStatus

/-- A sample of `base64.StdEncoding.EncodeToString`, on the byte values. -/
def sampleBase64Chars : List Nat → List Nat
  | [] => []
  | [a] => [a / 4, a % 4 * 16, 64, 64]
  | [a, b] => [a / 4, a % 4 * 16 + b / 16, b % 16 * 4, 64]
  | a :: b :: c :: rest =>
    a / 4 :: (a % 4 * 16 + b / 16) :: (b % 16 * 4 + c / 64) :: c % 64 :: sampleBase64Chars rest

/-- The character for a six-bit value of the standard base64 alphabet; `=` for `64`. -/
def base64Char (n : Nat) : Char :=
  if n < 26 then Char.ofNat (n + 65)
  else if n < 52 then Char.ofNat (n + 71)
  else if n < 62 then Char.ofNat (n - 4)
  else if n = 62 then '+'
  else if n = 63 then '/'
  else '='

/-- A sample of `base64.StdEncoding.EncodeToString`. -/
def sampleBase64Encode (b : Bytes) : String :=
  String.mk ((sampleBase64Chars (b.map (fun x => x.val))).map base64Char)

/-- A sample of `json.Marshal`, with every nested value given by its JSON text and
keys without characters to escape. -/
def sampleJsonMarshal (s : JsonDoc String) : Bytes :=
  match s with
  | .null => asciiBytes "null"
  | .scalar v => asciiBytes v
  | .array items => asciiBytes ("[" ++ ",".intercalate items ++ "]")
  | .object members =>
    asciiBytes ("\x7b" ++
      ",".intercalate (members.map (fun kv => "\"" ++ kv.1 ++ "\":" ++ kv.2)) ++ "\x7d")

/-- A sample JSON parser, on the four documents of `sampleJsonUnmarshal`; nested values
are given by their JSON text. Any other input is taken as malformed. -/
def sampleJsonParse (dt : Bytes) : Option (JsonDoc String) :=
  if dt = asciiBytes "\x7b\"a\":\"b\"\x7d" then some (.object [("a", "\"b\"")])
  else if dt = asciiBytes "\x7b\x7d" then some (.object [])
  else if dt = asciiBytes "null" then some .null
  else if dt = asciiBytes "[1]" then some (.array ["1"])
  else none

/-- The shared size in the spec's words: the sum of `Size` over the records with
`Size > 0` that are shared. -/
def specShared (dus : List (List UsageInfo)) : Int :=
  ((dus.flatten.filter (fun di => decide (di.Size > 0) && di.Shared)).map
    (fun di => di.Size)).sum

/-- A disk-usage run in which every step up to `LoadDrivers` succeeds and the one loaded
driver carries an initialization error. -/
def sampleDiskUsageEnv : DiskUsageEnv where
  pruneInfoErr := none
  getStoreErr := none
  newBuilderErr := none
  validateErr := none
  loadDriversErr := none
  drivers := [⟨"node0", none, some (.ext "failed to initialize builder node0" none)⟩]
  filterLen := 0
  verbose := false

/-! # Properties -/

/-! ## The result handler of `buildTargets` -/

theorem int_min?_eq_some_iff (xs : List Int) (m : Int) :
    xs.min? = some m ↔ m ∈ xs ∧ ∀ b ∈ xs, m ≤ b := by
  haveI : Std.Antisymm (fun a b : Int => a ≤ b) := ⟨fun h1 h2 => Int.le_antisymm h1 h2⟩
  exact List.min?_eq_some_iff (fun a => Int.le_refl a)
    (fun a b => by rcases min_choice a b with h | h <;> simp [h])
    (fun a b c => le_min_iff)

theorem minNonNilIndex_eq_some_iff {R : Type} (calls : List (Int × Option R)) (m : Int) :
    minNonNilIndex calls = some m ↔
      (∃ c ∈ calls, c.1 = m ∧ c.2.isSome = true) ∧
      ∀ c ∈ calls, c.2.isSome = true → m ≤ c.1 := by
  unfold minNonNilIndex
  rw [int_min?_eq_some_iff]
  constructor
  · rintro ⟨hmem, hle⟩
    refine ⟨?_, ?_⟩
    · obtain ⟨c, hc, rfl⟩ := List.mem_map.1 hmem
      rw [List.mem_filter] at hc
      exact ⟨c, hc.1, rfl, hc.2⟩
    · intro c hc hs
      exact hle c.1 (List.mem_map.2 ⟨c, List.mem_filter.2 ⟨hc, hs⟩, rfl⟩)
  · rintro ⟨⟨c, hc, hcm, hs⟩, hle⟩
    refine ⟨List.mem_map.2 ⟨c, List.mem_filter.2 ⟨hc, hs⟩, hcm⟩, ?_⟩
    intro b hb
    obtain ⟨c', hc', rfl⟩ := List.mem_map.1 hb
    rw [List.mem_filter] at hc'
    exact hle c' hc'.1 hc'.2

/-- Once a result with index `m` is held, calls with indexes `≥ m` change nothing. -/
theorem handler_foldl_fixed {R : Type} (m : Int) (r : R) (calls : List (Int × Option R))
    (hge : ∀ c ∈ calls, m ≤ c.1) :
    calls.foldl (fun s c => resultHandler s c.1 c.2) ⟨m, some r⟩ = ⟨m, some r⟩ := by
  induction calls with
  | nil => rfl
  | cons c rest ih =>
    have hc : m ≤ c.1 := hge c (List.mem_cons_self _ _)
    have hstep : resultHandler (⟨m, some r⟩ : HandlerState R) c.1 c.2 = ⟨m, some r⟩ := by
      simp [resultHandler, Int.not_lt.2 hc]
    rw [List.foldl_cons, hstep]
    exact ih (fun c' hc' => hge c' (List.mem_cons_of_mem _ hc'))

/-- From a state that holds nothing, or a result with an index above `m`, calls with
indexes `≥ m` end with the earliest non-nil result delivered with index `m`. -/
theorem handler_foldl_selects {R : Type} (m : Int) (calls : List (Int × Option R))
    (hge : ∀ c ∈ calls, m ≤ c.1) (hne : nonNilAt m calls ≠ []) (s : HandlerState R)
    (hs : s.res = none ∨ m < s.idx) :
    (calls.foldl (fun s c => resultHandler s c.1 c.2) s).res =
      (nonNilAt m calls).head?.bind Prod.snd := by
  induction calls generalizing s with
  | nil => simp [nonNilAt] at hne
  | cons c rest ih =>
    obtain ⟨d, g⟩ := c
    have hd : m ≤ d := hge (d, g) (List.mem_cons_self _ _)
    have hrest : ∀ c ∈ rest, m ≤ c.1 := fun c' hc' => hge c' (List.mem_cons_of_mem _ hc')
    by_cases hit : d = m ∧ g.isSome = true
    · obtain ⟨hdm, hg⟩ := hit
      obtain ⟨r, rfl⟩ := Option.isSome_iff_exists.1 hg
      subst hdm
      have hstep : resultHandler s d (some r) = ⟨d, some r⟩ := by
        rcases hs with h | h
        · simp [resultHandler, h]
        · simp [resultHandler, h]
      rw [List.foldl_cons]
      show (rest.foldl (fun s c => resultHandler s c.1 c.2) (resultHandler s d (some r))).res = _
      rw [hstep, handler_foldl_fixed d r rest hrest]
      simp [nonNilAt]
    · have hfilter : nonNilAt m ((d, g) :: rest) = nonNilAt m rest := by
        unfold nonNilAt
        rw [List.filter_cons_of_neg]
        simpa using hit
      rw [hfilter] at hne ⊢
      rw [List.foldl_cons]
      apply ih hrest hne
      show (resultHandler s d g).res = none ∨ m < (resultHandler s d g).idx
      unfold resultHandler
      split
      · cases g with
        | none => exact Or.inl rfl
        | some r =>
          right
          have : d ≠ m := fun h => hit ⟨h, rfl⟩
          show m < d
          omega
      · exact hs

/-- The handler ends with the selection of the spec when no call is delivered with an
index below `m`, the smallest index of the calls that carried a result. -/
theorem runHandlers_res_of_min {R : Type} (calls : List (Int × Option R)) (m : Int)
    (hm : minNonNilIndex calls = some m)
    (hnil : ∀ c ∈ calls, c.2 = none → m ≤ c.1) :
    (runHandlers calls).res = (nonNilAt m calls).head?.bind Prod.snd := by
  obtain ⟨⟨c, hc, hcm, hcs⟩, hle⟩ := (minNonNilIndex_eq_some_iff calls m).1 hm
  have hge : ∀ c ∈ calls, m ≤ c.1 := by
    intro c' hc'
    cases h : c'.2 with
    | none => exact hnil c' hc' h
    | some r => exact hle c' hc' (by simp [h])
  have hne : nonNilAt m calls ≠ [] := by
    intro h
    have : c ∈ nonNilAt m calls := by
      unfold nonNilAt
      exact List.mem_filter.2 ⟨hc, by simp [hcm, hcs]⟩
    rw [h] at this
    exact List.not_mem_nil _ this
  exact handler_foldl_selects m calls hge hne (HandlerState.init R) (Or.inl rfl)

/-- Every successful return of `buildTargets` carries the result the handler holds after
the calls of the run. -/
theorem buildTargets_ok_res {R J : Type} (env : BuildEnv R J) (opts : GoMap Options)
    (metadataFile : String) (out : Option SolveResponse × Option R)
    (h : buildTargets env opts metadataFile = some (.ok out)) :
    out.2 = (runHandlers (env.buildWithResultHandler opts).calls).res := by
  unfold buildTargets at h
  split at h
  · simp at h
  · simp only at h
    split at h
    · simp at h
    · split at h
      · simp at h
      · simp at h
      · split at h
        · simp at h
        · simp only [Option.some.injEq, Except.ok.injEq] at h
          rw [← h]

/-- C1, as stated, fails. With the calls `(1, r7)` then `(0, nil)` the handler ends
holding nil although the only result delivered is `r7`; in the other order it ends
holding `r7`. With two results delivered for index `0`, the one delivered first is kept,
so the outcome depends on the order of the calls. -/
theorem C1_counterexample :
    (runHandlers [((1 : Int), some (7 : Nat)), (0, none)]).res = none ∧
    specSelected [((1 : Int), some (7 : Nat)), (0, none)] = some 7 ∧
    (runHandlers [((0 : Int), none), (1, some (7 : Nat))]).res = some 7 ∧
    (runHandlers [((0 : Int), some (1 : Nat)), (0, some 2)]).res = some 1 ∧
    (runHandlers [((0 : Int), some (2 : Nat)), (0, some 1)]).res = some 2 := by
  decide

/-- C1, amended. For every finite sequence of result-handler calls in which some call
carries a non-nil result and no call that carries nil has a driver index below `m`, the
smallest driver index of the calls that carried a non-nil result: the result finally
held is the one of the earliest-delivered non-nil call with index `m`, it is what
`buildTargets` returns on success, and when exactly one non-nil call has index `m` every
permutation of the calls ends with the same result. -/
theorem C1_lowest_index_selected {R : Type} (calls : List (Int × Option R)) (m : Int)
    (hm : minNonNilIndex calls = some m)
    (hnil : ∀ c ∈ calls, c.2 = none → m ≤ c.1) :
    (runHandlers calls).res = specSelected calls ∧
    (∃ r, (runHandlers calls).res = some r ∧ (m, some r) ∈ calls) ∧
    (∀ (J : Type) (env : BuildEnv R J) (opts : GoMap Options) (metadataFile : String)
        (out : Option SolveResponse × Option R),
        (env.buildWithResultHandler opts).calls = calls →
        buildTargets env opts metadataFile = some (.ok out) →
        out.2 = specSelected calls) ∧
    (∀ calls' : List (Int × Option R), calls'.Perm calls → (nonNilAt m calls).length = 1 →
        (runHandlers calls').res = (runHandlers calls).res) := by
  have hres := runHandlers_res_of_min calls m hm hnil
  have hspec : specSelected calls = (nonNilAt m calls).head?.bind Prod.snd := by
    simp [specSelected, hm]
  have h1 : (runHandlers calls).res = specSelected calls := by rw [hres, hspec]
  refine ⟨h1, ?_, ?_, ?_⟩
  · obtain ⟨⟨c, hc, hcm, hcs⟩, _⟩ := (minNonNilIndex_eq_some_iff calls m).1 hm
    have hmem : c ∈ nonNilAt m calls := by
      unfold nonNilAt
      exact List.mem_filter.2 ⟨hc, by simp [hcm, hcs]⟩
    cases hf : nonNilAt m calls with
    | nil => rw [hf] at hmem; exact absurd hmem (List.not_mem_nil _)
    | cons x xs =>
      have hx : x ∈ nonNilAt m calls := by rw [hf]; exact List.mem_cons_self _ _
      unfold nonNilAt at hx
      obtain ⟨hxc, hxp⟩ := List.mem_filter.1 hx
      simp only [Bool.and_eq_true, decide_eq_true_eq] at hxp
      obtain ⟨d, g⟩ := x
      obtain ⟨r, hr⟩ := Option.isSome_iff_exists.1 hxp.2
      simp only at hxp hr
      subst hr
      refine ⟨r, ?_, ?_⟩
      · rw [hres, hf]; rfl
      · rw [← hxp.1]; exact hxc
  · intro J env opts metadataFile out hcalls hok
    rw [buildTargets_ok_res env opts metadataFile out hok, hcalls, h1]
  · intro calls' hperm hone
    have hm' : minNonNilIndex calls' = some m := by
      rw [minNonNilIndex_eq_some_iff] at hm ⊢
      obtain ⟨⟨c, hc, hcm⟩, hle⟩ := hm
      exact ⟨⟨c, hperm.mem_iff.2 hc, hcm⟩, fun c' hc' => hle c' (hperm.mem_iff.1 hc')⟩
    have hnil' : ∀ c ∈ calls', c.2 = none → m ≤ c.1 :=
      fun c hc => hnil c (hperm.mem_iff.1 hc)
    have hfp : (nonNilAt m calls').Perm (nonNilAt m calls) := by
      unfold nonNilAt
      exact hperm.filter _
    have heq : nonNilAt m calls' = nonNilAt m calls := by
      obtain ⟨x, hx⟩ := List.length_eq_one.1 hone
      rw [hx] at hfp ⊢
      exact List.perm_singleton.1 hfp
    rw [runHandlers_res_of_min calls' m hm' hnil', heq, hres]

/-- C1, amended, at the calls `(2, r20)`, `(1, r10)`, `(3, nil)`, `(1, r11)`: the
smallest index with a result is `1`, and `r10`, delivered first for it, is held. -/
theorem C1_lowest_index_selected_witness :
    (runHandlers [((2 : Int), some (20 : Nat)), (1, some 10), (3, none), (1, some 11)]).res
      = some 10 ∧
    specSelected [((2 : Int), some (20 : Nat)), (1, some 10), (3, none), (1, some 11)]
      = some 10 :=
  have h := (C1_lowest_index_selected
    [((2 : Int), some (20 : Nat)), (1, some 10), (3, none), (1, some 11)] 1
    (by decide) (by decide)).1
  ⟨h.trans (by decide), by decide⟩

/-! ## The option translation of `RunBuild` -/

theorem GoMap.get_set {V : Type} (m : GoMap V) (k : String) (v : V) (k' : String) :
    (m.set k v).get k' = if k' = k then some v else m.get k' := by
  induction m with
  | nil =>
    by_cases h : k' = k
    · simp [GoMap.set, GoMap.get, h]
    · have h' : ¬ k = k' := fun e => h e.symm
      simp [GoMap.set, GoMap.get, h, h']
  | cons e rest ih =>
    obtain ⟨k0, v0⟩ := e
    by_cases h0 : k0 = k
    · subst h0
      by_cases h : k' = k0
      · simp [GoMap.set, GoMap.get, h]
      · have h' : ¬ k0 = k' := fun e => h e.symm
        simp [GoMap.set, GoMap.get, h, h']
    · by_cases h1 : k0 = k'
      · subst h1
        simp [GoMap.set, GoMap.get, h0]
      · simp [GoMap.set, GoMap.get, h0, h1, ih]

/-- A successful translation put into `opts.Exports` the reconciliation of the export
list parsed by `CreateExports`. -/
theorem translateOptions_exports (c : Collaborators) (req : BuildOptions) (opts : Options)
    (h : translateOptions c req = .ok opts) :
    ∃ outputs, c.createExports req.Exports = .ok outputs ∧
      reconcileExports c req.ExportPush req.ExportLoad outputs = .ok opts.Exports := by
  unfold translateOptions at h
  split at h
  · simp at h
  · split at h
    · simp at h
    · split at h
      · simp at h
      · split at h
        · simp at h
        · simp only at h
          split at h
          · simp at h
          · split at h
            · simp at h
            · rename_i outputs houtputs
              split at h
              · simp at h
              · rename_i exports hexports
                split at h
                · simp at h
                · simp only [Except.ok.injEq] at h
                  subst h
                  exact ⟨outputs, houtputs, hexports⟩

theorem reconcileExports_push_load (c : Collaborators) (outputs : List ExportEntry) :
    reconcileExports c true true outputs
      = .error (.errorf "push and load may not be set together at the moment") := by
  simp [reconcileExports, reconcilePush]

/-- C2. For every request with `ExportPush` and `ExportLoad` both true, and whatever
the other fields and the collaborators do, the option translation returns an error, and
`RunBuild` returns that error with a nil response and a nil result context. -/
theorem C2_push_and_load_fail {R J : Type} (env : RunEnv R J) (req : BuildOptions)
    (hp : req.ExportPush = true) (hl : req.ExportLoad = true) :
    ∃ err, translateOptions env.collab req = .error err ∧
      RunBuild env req = some (.error err) := by
  cases ht : translateOptions env.collab req with
  | error err => exact ⟨err, rfl, by simp [RunBuild, ht]⟩
  | ok opts =>
    obtain ⟨outputs, _, hrec⟩ := translateOptions_exports env.collab req opts ht
    rw [hp, hl, reconcileExports_push_load] at hrec
    simp at hrec

/-- C2 at the zero request with `ExportPush` and `ExportLoad` set: the translation stops
at the export reconciliation. -/
theorem C2_push_and_load_fail_witness :
    (∃ err, translateOptions sampleRunEnv.collab
        { zeroRequest with ExportPush := true, ExportLoad := true } = .error err ∧
      RunBuild sampleRunEnv { zeroRequest with ExportPush := true, ExportLoad := true }
        = some (.error err)) ∧
    translateOptions sampleCollab { zeroRequest with ExportPush := true, ExportLoad := true }
      = .error (.errorf "push and load may not be set together at the moment") :=
  ⟨C2_push_and_load_fail sampleRunEnv
      { zeroRequest with ExportPush := true, ExportLoad := true } rfl rfl, by rfl⟩

/-- If the export list is parsed and its reconciliation fails, the translation fails. -/
theorem translateOptions_fails_of_reconcile (c : Collaborators) (req : BuildOptions)
    (outputs : List ExportEntry) (err : GoError)
    (hparsed : c.createExports req.Exports = .ok outputs)
    (hrec : reconcileExports c req.ExportPush req.ExportLoad outputs = .error err)
    (opts : Options) : translateOptions c req ≠ .ok opts := by
  intro h
  obtain ⟨outputs', hp', hr'⟩ := translateOptions_exports c req opts h
  rw [hparsed] at hp'
  simp only [Except.ok.injEq] at hp'
  subst hp'
  rw [hrec] at hr'
  simp at hr'

/-- If the export list is parsed and reconciled, a successful translation carries the
reconciled list. -/
theorem translateOptions_exports_eq (c : Collaborators) (req : BuildOptions)
    (outputs exports : List ExportEntry)
    (hparsed : c.createExports req.Exports = .ok outputs)
    (hrec : reconcileExports c req.ExportPush req.ExportLoad outputs = .ok exports)
    (opts : Options) (h : translateOptions c req = .ok opts) : opts.Exports = exports := by
  obtain ⟨outputs', hp', hr'⟩ := translateOptions_exports c req opts h
  rw [hparsed] at hp'
  simp only [Except.ok.injEq] at hp'
  subst hp'
  rw [hrec] at hr'
  simp only [Except.ok.injEq] at hr'
  exact hr'.symm

/-- C3. For every request with `ExportPush` true and `ExportLoad` false whose parsed
export list is empty, the export reconciliation yields exactly one entry, of type
`image`, whose attributes are exactly `push` = `true`; a successful translation has
this list as `opts.Exports`. -/
theorem C3_push_synthesizes_image (c : Collaborators) (req : BuildOptions)
    (hp : req.ExportPush = true) (hl : req.ExportLoad = false)
    (hparsed : c.createExports req.Exports = .ok []) :
    reconcileExports c req.ExportPush req.ExportLoad []
      = .ok [⟨"image", [("push", "true")]⟩] ∧
    (∀ k, GoMap.get [("push", "true")] k = if k = "push" then some "true" else none) ∧
    (∀ opts, translateOptions c req = .ok opts →
      opts.Exports = [⟨"image", [("push", "true")]⟩]) := by
  have hrec : reconcileExports c req.ExportPush req.ExportLoad []
      = .ok [⟨"image", [("push", "true")]⟩] := by
    rw [hp, hl]; rfl
  refine ⟨hrec, ?_, ?_⟩
  · intro k
    by_cases h : k = "push"
    · simp [GoMap.get, h]
    · have h' : ¬ "push" = k := fun e => h e.symm
      simp [GoMap.get, h, h']
  · intro opts h
    exact translateOptions_exports_eq c req [] _ hparsed hrec opts h

/-- C3 at the zero request with `ExportPush` set: the translation succeeds with the
synthesized `image` export. -/
theorem C3_push_synthesizes_image_witness :
    (translateOptions sampleCollab { zeroRequest with ExportPush := true }).toOption.map
      (fun opts => opts.Exports) = some [⟨"image", [("push", "true")]⟩] :=
  have h := (C3_push_synthesizes_image sampleCollab { zeroRequest with ExportPush := true }
    rfl rfl rfl).2.2
  match ht : translateOptions sampleCollab { zeroRequest with ExportPush := true } with
  | .ok opts => by simp [Except.toOption, h opts ht]
  | .error err => by
    have : translateOptions sampleCollab { zeroRequest with ExportPush := true }
        = .ok _ := rfl
    rw [ht] at this
    simp at this

/-- C4. For every request with `ExportPush` true and `ExportLoad` false and a non-empty
parsed export list `first :: rest`: if the type of `first` is `image`, the reconciled
list is the input list with `push` = `true` assigned in the attributes of `first`, every
other attribute of `first` and every other entry unchanged, and a successful translation
carries it; otherwise the reconciliation fails with the message `push and <type, as %q
prints it> output can't be used together`, and the translation fails. -/
theorem C4_push_sets_attr_or_fails (c : Collaborators) (req : BuildOptions)
    (first : ExportEntry) (rest : List ExportEntry)
    (hp : req.ExportPush = true) (hl : req.ExportLoad = false)
    (hparsed : c.createExports req.Exports = .ok (first :: rest)) :
    (first.Type' = "image" →
      reconcileExports c req.ExportPush req.ExportLoad (first :: rest)
        = .ok (⟨first.Type', first.Attrs.set "push" "true"⟩ :: rest) ∧
      (∀ k, (first.Attrs.set "push" "true").get k
        = if k = "push" then some "true" else first.Attrs.get k) ∧
      (∀ opts, translateOptions c req = .ok opts →
        opts.Exports = ⟨first.Type', first.Attrs.set "push" "true"⟩ :: rest)) ∧
    (first.Type' ≠ "image" →
      (∃ err, reconcileExports c req.ExportPush req.ExportLoad (first :: rest) = .error err ∧
        err.Error = "push and " ++ c.quote first.Type' ++ " output can't be used together") ∧
      (∀ opts, translateOptions c req ≠ .ok opts)) := by
  constructor
  · intro ht
    have hrec : reconcileExports c req.ExportPush req.ExportLoad (first :: rest)
        = .ok (⟨first.Type', first.Attrs.set "push" "true"⟩ :: rest) := by
      rw [hp, hl]
      simp [reconcileExports, reconcilePush, reconcileLoad, ht]
    exact ⟨hrec, fun k => GoMap.get_set first.Attrs "push" "true" k,
      fun opts h => translateOptions_exports_eq c req _ _ hparsed hrec opts h⟩
  · intro ht
    have hrec : reconcileExports c req.ExportPush req.ExportLoad (first :: rest)
        = .error (.errorf ("push and " ++ c.quote first.Type' ++
            " output can't be used together")) := by
      rw [hp, hl]
      simp [reconcileExports, reconcilePush, ht]
    exact ⟨⟨_, hrec, rfl⟩,
      fun opts => translateOptions_fails_of_reconcile c req _ _ hparsed hrec opts⟩

/-- C4 at two requests with `ExportPush` set: the export `image` keeps its attribute
`name` and gains `push`; the export `local` makes the translation fail. -/
theorem C4_push_sets_attr_or_fails_witness :
    (translateOptions sampleCollab
        { zeroRequest with ExportPush := true, Exports := ["image", "local"] }).toOption.map
      (fun opts => opts.Exports)
      = some [⟨"image", [("name", "app"), ("push", "true")]⟩, ⟨"local", [("name", "app")]⟩] ∧
    translateOptions sampleCollab
        { zeroRequest with ExportPush := true, Exports := ["local", "image"] }
      = .error (.errorf "push and \"local\" output can't be used together") ∧
    (∀ opts, translateOptions sampleCollab
        { zeroRequest with ExportPush := true, Exports := ["local", "image"] } ≠ .ok opts) :=
  ⟨by rfl, by rfl,
    ((C4_push_sets_attr_or_fails sampleCollab
      { zeroRequest with ExportPush := true, Exports := ["local", "image"] }
      ⟨"local", [("name", "app")]⟩ [⟨"image", [("name", "app")]⟩] rfl rfl rfl).2
      (by decide)).2⟩

/-- C5. For every request with `ExportLoad` true and `ExportPush` false: an empty parsed
export list yields exactly one entry, of type `docker` (with no attribute); a non-empty
list whose first entry has type `docker` is accepted unchanged; a non-empty list whose
first entry has another type makes the reconciliation fail with the message `load and
<type, as %q prints it> output can't be used together`, and the translation fail. -/
theorem C5_load_mirrors_push (c : Collaborators) (req : BuildOptions)
    (outputs : List ExportEntry)
    (hl : req.ExportLoad = true) (hp : req.ExportPush = false)
    (hparsed : c.createExports req.Exports = .ok outputs) :
    (outputs = [] →
      reconcileExports c req.ExportPush req.ExportLoad outputs = .ok [⟨"docker", []⟩] ∧
      (∀ opts, translateOptions c req = .ok opts → opts.Exports = [⟨"docker", []⟩])) ∧
    (∀ first rest, outputs = first :: rest → first.Type' = "docker" →
      reconcileExports c req.ExportPush req.ExportLoad outputs = .ok outputs ∧
      (∀ opts, translateOptions c req = .ok opts → opts.Exports = outputs)) ∧
    (∀ first rest, outputs = first :: rest → first.Type' ≠ "docker" →
      (∃ err, reconcileExports c req.ExportPush req.ExportLoad outputs = .error err ∧
        err.Error = "load and " ++ c.quote first.Type' ++ " output can't be used together") ∧
      (∀ opts, translateOptions c req ≠ .ok opts)) := by
  refine ⟨?_, ?_, ?_⟩
  · intro he
    subst he
    have hrec : reconcileExports c req.ExportPush req.ExportLoad []
        = .ok [⟨"docker", []⟩] := by
      rw [hp, hl]; rfl
    exact ⟨hrec, fun opts h => translateOptions_exports_eq c req _ _ hparsed hrec opts h⟩
  · intro first rest he ht
    subst he
    have hrec : reconcileExports c req.ExportPush req.ExportLoad (first :: rest)
        = .ok (first :: rest) := by
      rw [hp, hl]
      simp [reconcileExports, reconcilePush, reconcileLoad, ht]
    exact ⟨hrec, fun opts h => translateOptions_exports_eq c req _ _ hparsed hrec opts h⟩
  · intro first rest he ht
    subst he
    have hrec : reconcileExports c req.ExportPush req.ExportLoad (first :: rest)
        = .error (.errorf ("load and " ++ c.quote first.Type' ++
            " output can't be used together")) := by
      rw [hp, hl]
      simp [reconcileExports, reconcilePush, reconcileLoad, ht]
    exact ⟨⟨_, hrec, rfl⟩,
      fun opts => translateOptions_fails_of_reconcile c req _ _ hparsed hrec opts⟩

/-- C5 at three requests with `ExportLoad` set: no export, the export `docker`, and the
export `image`. -/
theorem C5_load_mirrors_push_witness :
    (translateOptions sampleCollab { zeroRequest with ExportLoad := true }).toOption.map
      (fun opts => opts.Exports) = some [⟨"docker", []⟩] ∧
    (translateOptions sampleCollab
        { zeroRequest with ExportLoad := true, Exports := ["docker"] }).toOption.map
      (fun opts => opts.Exports) = some [⟨"docker", [("name", "app")]⟩] ∧
    translateOptions sampleCollab
        { zeroRequest with ExportLoad := true, Exports := ["image"] }
      = .error (.errorf "load and \"image\" output can't be used together") ∧
    (∀ opts, translateOptions sampleCollab
        { zeroRequest with ExportLoad := true, Exports := ["image"] } ≠ .ok opts) :=
  ⟨by rfl, by rfl, by rfl,
    ((C5_load_mirrors_push sampleCollab
      { zeroRequest with ExportLoad := true, Exports := ["image"] }
      [⟨"image", [("name", "app")]⟩] rfl rfl rfl).2.2
      ⟨"image", [("name", "app")]⟩ [] rfl (by decide)).2⟩

/-! ## `decodeExporterResponse` -/

theorem GoMap.set_of_not_mem {V : Type} (m : GoMap V) (k : String) (v : V)
    (h : k ∉ m.keys) : m.set k v = m ++ [(k, v)] := by
  induction m with
  | nil => rfl
  | cons e rest ih =>
    obtain ⟨k0, v0⟩ := e
    have h0 : ¬ k0 = k := fun e => h (by simp [GoMap.keys, e])
    have hr : k ∉ GoMap.keys rest := fun hm => h (by
      simp only [GoMap.keys, List.map_cons, List.mem_cons]
      exact Or.inr hm)
    simp [GoMap.set, h0, ih hr]

/-- The loop of `decodeExporterResponse` from the map `out`, over entries with fresh and
distinct keys: it appends one entry per input entry. -/
theorem decode_foldl {J : Type} (c : Codec J) (rest : GoMap String) (out : GoMap MetaValue)
    (hnodup : rest.keys.Nodup) (hfresh : ∀ k ∈ rest.keys, k ∉ out.keys) :
    rest.foldl
      (fun out kv =>
        match c.base64Decode kv.2 with
        | .error _ => out.set kv.1 (.str kv.2)
        | .ok dt =>
          match c.jsonUnmarshal dt with
          | .error _ => out.set kv.1 (.str kv.2)
          | .ok raw =>
            if raw.length = 0 then out.set kv.1 (.str kv.2)
            else out.set kv.1 (.rawMessage dt))
      out
    = out ++ rest.map (fun kv => (kv.1, decodeValue c kv.2)) := by
  induction rest generalizing out with
  | nil => simp
  | cons e rest ih =>
    obtain ⟨k, v⟩ := e
    have hk : k ∉ out.keys := hfresh k (by simp [GoMap.keys])
    have hnd : (k :: GoMap.keys rest).Nodup := by simpa [GoMap.keys] using hnodup
    have hstep : (match c.base64Decode v with
        | .error _ => out.set k (.str v)
        | .ok dt =>
          match c.jsonUnmarshal dt with
          | .error _ => out.set k (.str v)
          | .ok raw =>
            if raw.length = 0 then out.set k (.str v)
            else out.set k (.rawMessage dt)) = out ++ [(k, decodeValue c v)] := by
      rw [← GoMap.set_of_not_mem out k _ hk]
      unfold decodeValue
      split
      · rfl
      · split
        · rfl
        · split <;> rfl
    rw [List.foldl_cons]
    simp only
    rw [hstep, ih (out ++ [(k, decodeValue c v)]) (List.nodup_cons.1 hnd).2]
    · simp
    · intro k' hk' hmem
      simp only [GoMap.keys, List.map_append, List.map_cons, List.map_nil, List.mem_append,
        List.mem_singleton] at hmem
      rcases hmem with hmem | hmem
      · exact hfresh k' (by simp only [GoMap.keys, List.map_cons, List.mem_cons]; exact Or.inr hk') hmem
      · subst hmem
        exact (List.nodup_cons.1 hnd).1 hk'

theorem decodeExporterResponse_eq_map {J : Type} (c : Codec J) (m : GoMap String)
    (hnodup : m.keys.Nodup) :
    decodeExporterResponse c m = m.map (fun kv => (kv.1, decodeValue c kv.2)) := by
  unfold decodeExporterResponse
  rw [decode_foldl c m [] hnodup (fun _ _ h => by simp [GoMap.keys] at h)]
  simp

theorem decodeValue_rawMessage_iff {J : Type} (c : Codec J) (v : String) (dt : Bytes) :
    decodeValue c v = .rawMessage dt ↔
      (c.base64Decode v = .ok dt ∧ ∃ raw, c.jsonUnmarshal dt = .ok raw ∧ raw ≠ []) := by
  cases h1 : c.base64Decode v with
  | error e =>
    have hv : decodeValue c v = .str v := by simp [decodeValue, h1]
    rw [hv]
    constructor
    · intro h; cases h
    · rintro ⟨h, _⟩; cases h
  | ok dt' =>
    cases h2 : c.jsonUnmarshal dt' with
    | error e =>
      have hv : decodeValue c v = .str v := by simp [decodeValue, h1, h2]
      rw [hv]
      constructor
      · intro h; cases h
      · rintro ⟨h, raw, hraw, _⟩
        simp only [Except.ok.injEq] at h
        subst h
        rw [h2] at hraw; cases hraw
    | ok raw =>
      by_cases hlen : raw.length = 0
      · have hv : decodeValue c v = .str v := by simp [decodeValue, h1, h2, hlen]
        rw [hv]
        constructor
        · intro h; cases h
        · rintro ⟨h, raw', hraw, hne⟩
          simp only [Except.ok.injEq] at h
          subst h
          rw [h2] at hraw
          simp only [Except.ok.injEq] at hraw
          subst hraw
          exact absurd (List.length_eq_zero.1 hlen) hne
      · have hv : decodeValue c v = .rawMessage dt' := by simp [decodeValue, h1, h2, hlen]
        rw [hv]
        constructor
        · intro h
          simp only [MetaValue.rawMessage.injEq] at h
          subst h
          exact ⟨rfl, raw, h2, fun h => hlen (by simp [h])⟩
        · rintro ⟨h, _⟩
          simp only [Except.ok.injEq] at h
          rw [h]

theorem decodeValue_str_or_raw {J : Type} (c : Codec J) (v : String) :
    decodeValue c v = .str v ∨ ∃ dt, decodeValue c v = .rawMessage dt := by
  unfold decodeValue
  split
  · exact Or.inl rfl
  · split
    · exact Or.inl rfl
    · split
      · exact Or.inl rfl
      · exact Or.inr ⟨_, rfl⟩

theorem decodeExporterResponse_single {J : Type} (c : Codec J) (k v : String) :
    decodeExporterResponse c [(k, v)] = [(k, decodeValue c v)] := by
  rw [decodeExporterResponse_eq_map c [(k, v)] (by simp [GoMap.keys])]
  rfl

/-- C7, as stated, fails. The array `[1]` is a non-empty JSON structure; its JSON text
is `[1]`, whose base64 text is `WzFd`, and both decoders invert the encoders there. For
the map with the one entry `k`, `WzFd` the function keeps the string `WzFd` under `k`:
the decoded bytes are not embedded, because the code unmarshals into a
`map[string]interface{}` and an array cannot be stored into a map. -/
theorem C7_counterexample :
    sampleBase64Encode (sampleJsonMarshal (.array ["1"])) = "WzFd" ∧
    sampleBase64Decode "WzFd" = .ok (sampleJsonMarshal (.array ["1"])) ∧
    sampleJsonParse (sampleJsonMarshal (.array ["1"])) = some (.array ["1"]) ∧
    decodeExporterResponse (jsonCodec sampleBase64Decode sampleJsonParse) [("k", "WzFd")]
      = [("k", .str "WzFd")] ∧
    ¬ ∃ dt, decodeExporterResponse (jsonCodec sampleBase64Decode sampleJsonParse)
      [("k", "WzFd")] = [("k", .rawMessage dt)] := by
  refine ⟨by decide, by rfl, by rfl, by rfl, ?_⟩
  rintro ⟨dt, h⟩
  have h' : decodeExporterResponse (jsonCodec sampleBase64Decode sampleJsonParse)
      [("k", "WzFd")] = [("k", .str "WzFd")] := by rfl
  rw [h'] at h
  simp at h

/-- C7, amended. For every JSON value `s` and key `k`, with encoders `jsonMarshal` and
`base64Encode` that the base64 decoder and the JSON parser invert at `s`, and `v` the
value `base64Encode (jsonMarshal s)`: if `s` is a non-empty JSON object,
`decodeExporterResponse` applied to the map with the one entry `k`, `v` yields under `k`
the nested document `jsonMarshal s`, whose JSON decoding by the code is the members of
`s` and whose base64 text is `v` again; if `s` is anything else (an array, a scalar,
`null` or the empty object), the entry under `k` is the string `v` itself. And for every
value `v` that does not base64-decode to a JSON text, the entry under `k` is the string
`v` itself. -/
theorem C7_object_round_trip {J : Type} (base64Decode : String → Except GoError Bytes)
    (parse : Bytes → Option (JsonDoc J)) (base64Encode : Bytes → String)
    (jsonMarshal : JsonDoc J → Bytes) (k : String) (s : JsonDoc J)
    (h64 : base64Decode (base64Encode (jsonMarshal s)) = .ok (jsonMarshal s))
    (hjson : parse (jsonMarshal s) = some s) :
    (∀ members, s = .object members → members ≠ [] →
      decodeExporterResponse (jsonCodec base64Decode parse)
          [(k, base64Encode (jsonMarshal s))]
        = [(k, .rawMessage (jsonMarshal s))] ∧
      (jsonCodec base64Decode parse).jsonUnmarshal (jsonMarshal s) = .ok members) ∧
    ((∀ members, s = .object members → members = []) →
      decodeExporterResponse (jsonCodec base64Decode parse)
          [(k, base64Encode (jsonMarshal s))]
        = [(k, .str (base64Encode (jsonMarshal s)))]) ∧
    (∀ v : String, (¬ ∃ dt d, base64Decode v = .ok dt ∧ parse dt = some d) →
      decodeExporterResponse (jsonCodec base64Decode parse) [(k, v)] = [(k, .str v)]) := by
  refine ⟨?_, ?_, ?_⟩
  · intro members hs hne
    subst hs
    have hun : (jsonCodec base64Decode parse).jsonUnmarshal
        (jsonMarshal (.object members)) = .ok members := by
      simp [jsonCodec, unmarshalIntoMap, hjson]
    refine ⟨?_, hun⟩
    rw [decodeExporterResponse_single,
      (decodeValue_rawMessage_iff (jsonCodec base64Decode parse) _
        (jsonMarshal (.object members))).2 ⟨h64, members, hun, hne⟩]
  · intro hs
    rw [decodeExporterResponse_single]
    rcases decodeValue_str_or_raw (jsonCodec base64Decode parse)
      (base64Encode (jsonMarshal s)) with h | ⟨dt, h⟩
    · rw [h]
    · exfalso
      obtain ⟨h1, raw, h2, h3⟩ :=
        (decodeValue_rawMessage_iff (jsonCodec base64Decode parse) _ dt).1 h
      have h1' : base64Decode (base64Encode (jsonMarshal s)) = .ok dt := h1
      rw [h64] at h1'
      simp only [Except.ok.injEq] at h1'
      subst h1'
      have h2' : unmarshalIntoMap parse (jsonMarshal s) = .ok raw := h2
      unfold unmarshalIntoMap at h2'
      rw [hjson] at h2'
      cases s with
      | null =>
        simp only [Except.ok.injEq] at h2'
        exact h3 h2'.symm
      | scalar a => simp at h2'
      | array items => simp at h2'
      | object members =>
        simp only [Except.ok.injEq] at h2'
        subst h2'
        exact h3 (hs members rfl)
  · intro v hno
    rw [decodeExporterResponse_single]
    rcases decodeValue_str_or_raw (jsonCodec base64Decode parse) v with h | ⟨dt, h⟩
    · rw [h]
    · exfalso
      obtain ⟨h1, raw, h2, _⟩ :=
        (decodeValue_rawMessage_iff (jsonCodec base64Decode parse) v dt).1 h
      have h2' : unmarshalIntoMap parse dt = .ok raw := h2
      unfold unmarshalIntoMap at h2'
      cases hp : parse dt with
      | none => rw [hp] at h2'; simp at h2'
      | some d => exact hno ⟨dt, d, h1, hp⟩

/-- C7, amended, at the object with the member `a` = `b`, whose JSON text has the base64
text `eyJhIjoiYiJ9`: the value is embedded and decodes to the member again. -/
theorem C7_object_round_trip_witness :
    sampleBase64Encode (sampleJsonMarshal (.object [("a", "\"b\"")])) = "eyJhIjoiYiJ9" ∧
    decodeExporterResponse (jsonCodec sampleBase64Decode sampleJsonParse)
        [("containerimage.descriptor", "eyJhIjoiYiJ9")]
      = [("containerimage.descriptor", .rawMessage (asciiBytes "\x7b\"a\":\"b\"\x7d"))] ∧
    (jsonCodec sampleBase64Decode sampleJsonParse).jsonUnmarshal
        (sampleJsonMarshal (.object [("a", "\"b\"")])) = .ok [("a", "\"b\"")] :=
  have h := (C7_object_round_trip sampleBase64Decode sampleJsonParse sampleBase64Encode
    sampleJsonMarshal "containerimage.descriptor" (.object [("a", "\"b\"")])
    (by rfl) (by rfl)).1 [("a", "\"b\"")] rfl (by decide)
  ⟨by decide, h.1, h.2⟩

/-! ## `printSummary` -/

/-- C8. On the records of the spec's example the summary is total 150, shared 50,
private 100, reclaimable 100. On the records `(size=100, shared)` and `(size=-1, shared)`
the code accumulates `shared = 99`, and prints `Private` as 1, where the sum over the
shared records with positive size is 100: `shared` is accumulated outside the test
`di.Size > 0` that guards `total` and `reclaimable`. -/
theorem C8_shared_not_guarded_by_size :
    summarize [[⟨"a", false, false, 100, false⟩, ⟨"b", false, true, 50, true⟩]]
      = ⟨150, 100, 50⟩ ∧
    printSummary [[⟨"a", false, false, 100, false⟩, ⟨"b", false, true, 50, true⟩]]
      = [("Shared", 50), ("Private", 100), ("Reclaimable", 100), ("Total", 150)] ∧
    summarize [[⟨"a", false, false, 100, true⟩, ⟨"b", false, false, -1, true⟩]]
      = ⟨100, 100, 99⟩ ∧
    specShared [[⟨"a", false, false, 100, true⟩, ⟨"b", false, false, -1, true⟩]] = 100 ∧
    printSummary [[⟨"a", false, false, 100, true⟩, ⟨"b", false, false, -1, true⟩]]
      = [("Shared", 99), ("Private", 1), ("Reclaimable", 100), ("Total", 100)] := by
  decide

/-! ## `wrapBuildError` -/

set_option maxRecDepth 100000 in
theorem message_names_build_context :
    stringsContains ("current frontend does not support --build-context." ++
      " Named contexts are supported since Dockerfile v1.4. Use #syntax directive in Dockerfile or update to latest BuildKit.")
      "--build-context" = true := by
  decide

set_option maxRecDepth 100000 in
theorem message_names_targets :
    stringsContains
      ("current frontend does not support defining additional contexts for targets." ++
      " Named contexts are supported since Dockerfile v1.4. Use #syntax directive in Dockerfile or update to latest BuildKit.")
      "additional contexts for targets" = true := by
  decide

/-- C9. For every error whose gRPC status has the code `Unimplemented` and a message
that contains `unsupported frontend capability moby.buildkit.frontend.contexts`,
`wrapBuildError` returns an error whose message contains `--build-context` when `bake`
is false and `additional contexts for targets` when `bake` is true, and in both modes
`Unwrap` of the returned error is the original error. -/
theorem C9_capability_error_rewritten (asGRPCStatus : GoError → Option Status)
    (err : GoError) (st : Status) (hst : asGRPCStatus err = some st)
    (hcode : st.code = codes.Unimplemented)
    (hmsg : stringsContains st.message
      "unsupported frontend capability moby.buildkit.frontend.contexts" = true) :
    (∃ w, wrapBuildError asGRPCStatus (some err) false = some w ∧
      stringsContains w.Error "--build-context" = true ∧ w.Unwrap = some err) ∧
    (∃ w, wrapBuildError asGRPCStatus (some err) true = some w ∧
      stringsContains w.Error "additional contexts for targets" = true ∧
      w.Unwrap = some err) := by
  have hf : wrapBuildError asGRPCStatus (some err) false = some (.wrapped err
      ("current frontend does not support --build-context." ++
        " Named contexts are supported since Dockerfile v1.4. Use #syntax directive in Dockerfile or update to latest BuildKit.")) := by
    simp [wrapBuildError, hst, hcode, hmsg]
  have ht : wrapBuildError asGRPCStatus (some err) true = some (.wrapped err
      ("current frontend does not support defining additional contexts for targets." ++
        " Named contexts are supported since Dockerfile v1.4. Use #syntax directive in Dockerfile or update to latest BuildKit.")) := by
    simp [wrapBuildError, hst, hcode, hmsg]
  exact ⟨⟨_, hf, message_names_build_context, rfl⟩, ⟨_, ht, message_names_targets, rfl⟩⟩

set_option maxRecDepth 100000 in
/-- C9 at an `Unimplemented` status reported by the engine. -/
theorem C9_capability_error_rewritten_witness :
    (wrapBuildError sampleAsGRPCStatus
      (some (.ext "rpc error" (some ⟨12,
        "unsupported frontend capability moby.buildkit.frontend.contexts"⟩))) false).map
      GoError.Error
      = some ("current frontend does not support --build-context. Named contexts are " ++
        "supported since Dockerfile v1.4. Use #syntax directive in Dockerfile or update " ++
        "to latest BuildKit.") ∧
    (∃ w, wrapBuildError sampleAsGRPCStatus
      (some (.ext "rpc error" (some ⟨12,
        "unsupported frontend capability moby.buildkit.frontend.contexts"⟩))) true = some w ∧
      stringsContains w.Error "additional contexts for targets" = true ∧
      w.Unwrap = some (.ext "rpc error" (some ⟨12,
        "unsupported frontend capability moby.buildkit.frontend.contexts"⟩))) :=
  ⟨by decide,
    (C9_capability_error_rewritten sampleAsGRPCStatus
      (.ext "rpc error" (some ⟨12,
        "unsupported frontend capability moby.buildkit.frontend.contexts"⟩))
      ⟨12, "unsupported frontend capability moby.buildkit.frontend.contexts"⟩
      rfl rfl (by decide)).2⟩

/-! ## `runDiskUsage` -/

/-- C10. When every step up to `LoadDrivers` succeeds and some loaded driver carries an
initialization error, `runDiskUsage` returns the nil error, and writes no summary: the
loop over the drivers returns `err`, the nil result of `LoadDrivers`, not `di.Err`. -/
theorem C10_init_error_returns_nil (env : DiskUsageEnv)
    (h1 : env.pruneInfoErr = none) (h2 : env.getStoreErr = none)
    (h3 : env.newBuilderErr = none) (h4 : env.validateErr = none)
    (h5 : env.loadDriversErr = none)
    (hinit : ∃ di ∈ env.drivers, di.Err ≠ none) :
    runDiskUsage env = (none, none) := by
  have hany : env.drivers.any (fun di => di.Err.isSome) = true := by
    obtain ⟨di, hmem, hne⟩ := hinit
    rw [List.any_eq_true]
    exact ⟨di, hmem, Option.isSome_iff_ne_none.2 hne⟩
  simp [runDiskUsage, h1, h2, h3, h4, h5, hany]

/-- C10 at a run whose one driver failed to initialize. -/
theorem C10_init_error_returns_nil_witness :
    runDiskUsage sampleDiskUsageEnv = (none, none) :=
  C10_init_error_returns_nil sampleDiskUsageEnv rfl rfl rfl rfl rfl
    ⟨_, List.mem_cons_self _ _, by simp⟩

/-! ## `wrapBuildError`: the errors left alone -/

/-- C11. `wrapBuildError` rewrites nothing else: for both values of `bake` it returns nil
for the nil error, and for every non-nil error that has no gRPC status, or whose status
code is not `Unimplemented`, or whose status message does not contain `unsupported
frontend capability moby.buildkit.frontend.contexts`, it returns that same error. -/
theorem C11_other_errors_unchanged (asGRPCStatus : GoError → Option Status) (bake : Bool) :
    wrapBuildError asGRPCStatus none bake = none ∧
    ∀ err : GoError,
      (asGRPCStatus err = none ∨
        ∃ st, asGRPCStatus err = some st ∧
          (st.code ≠ codes.Unimplemented ∨
            stringsContains st.message
              "unsupported frontend capability moby.buildkit.frontend.contexts" = false)) →
      wrapBuildError asGRPCStatus (some err) bake = some err := by
  refine ⟨rfl, ?_⟩
  intro err h
  rcases h with hnone | ⟨st, hst, hcode | hmsg⟩
  · simp [wrapBuildError, hnone]
  · simp [wrapBuildError, hst, hcode]
  · simp [wrapBuildError, hst, hmsg]

set_option maxRecDepth 100000 in
/-- C11 at an error without a status, at a status `Unknown` (code 2) with the capability
message, and at a status `Unimplemented` with another message, in single-target and in
bake mode. -/
theorem C11_other_errors_unchanged_witness :
    wrapBuildError sampleAsGRPCStatus none true = none ∧
    wrapBuildError sampleAsGRPCStatus (some (.errorf "invalid print field: x=y")) false
      = some (.errorf "invalid print field: x=y") ∧
    wrapBuildError sampleAsGRPCStatus
      (some (.ext "rpc error" (some ⟨2,
        "unsupported frontend capability moby.buildkit.frontend.contexts"⟩))) true
      = some (.ext "rpc error" (some ⟨2,
        "unsupported frontend capability moby.buildkit.frontend.contexts"⟩)) ∧
    wrapBuildError sampleAsGRPCStatus
      (some (.ext "rpc error" (some ⟨12, "unknown service"⟩))) false
      = some (.ext "rpc error" (some ⟨12, "unknown service"⟩)) :=
  ⟨(C11_other_errors_unchanged sampleAsGRPCStatus true).1,
    (C11_other_errors_unchanged sampleAsGRPCStatus false).2 _ (Or.inl rfl),
    (C11_other_errors_unchanged sampleAsGRPCStatus true).2 _
      (Or.inr ⟨_, rfl, Or.inl (by decide)⟩),
    (C11_other_errors_unchanged sampleAsGRPCStatus false).2 _
      (Or.inr ⟨_, rfl, Or.inr (by decide)⟩)⟩

end Buildx
